import Mathlib

/-!
Shallow embedding of the consensus core of the casper-node repository:
the era bookkeeping of the era supervisor (`era.rs`), the `CreateNewEra`
event-handling arm of the consensus component (`consensus.rs`), and the
highway round success meter (`round_success_meter.rs`).

Rust machine integers are modelled as `Nat`, with an explicit `% 2 ^ 64`
where u64 overflow matters.  Rust `Vec` and `VecDeque` become `List`
(for the `VecDeque` of rounds, the head of the list is the front, i.e.
index 0, the most recently handled round).  `HashSet` becomes `Finset`.
A Rust `panic!` is modelled as a distinguished `fatal` outcome.
-/

namespace Casper

/-- Size of the u64 value space. -/
def U64_MOD : Nat := 2 ^ 64

/-- Rust `EraId(pub(crate) u64)` from `era.rs`. -/
structure EraId where
  val : Nat
deriving DecidableEq, Repr

/-- Rust `EraId::successor`: `EraId(self.0 + 1)`; u64 addition wraps modulo `2 ^ 64`
in release builds (and panics in debug builds at `u64::MAX`). -/
def EraId.successor (e : EraId) : EraId :=
  ⟨(e.val + 1) % U64_MOD⟩

/-- Rust `EraId::checked_sub`: `self.0.checked_sub(x).map(EraId)`. -/
def EraId.checked_sub (e : EraId) (x : Nat) : Option EraId :=
  if x ≤ e.val then some ⟨e.val - x⟩ else none

/-- Rust `PendingCandidate` from `era.rs`: a candidate block (of abstract type `CB`),
the `validated` flag, and the list of accused validators (abstract type `PK`)
for which evidence is still missing. -/
structure PendingCandidate (CB PK : Type) where
  candidate : CB
  validated : Bool
  missing_evidence : List PK

/-- Rust `PendingCandidate::new(candidate, missing_evidence)`: `validated` starts `false`. -/
def PendingCandidate.new (candidate : CB) (missing_evidence : List PK) :
    PendingCandidate CB PK :=
  { candidate, validated := false, missing_evidence }

/-- Rust `PendingCandidate::is_complete`: `self.validated && self.missing_evidence.is_empty()`. -/
def PendingCandidate.is_complete (pc : PendingCandidate CB PK) : Bool :=
  pc.validated && pc.missing_evidence.isEmpty

/-- Rust `Era<I>` from `era.rs`.  The boxed consensus-protocol instance is an
abstract state of type `γ`; the validator-weights map is abstract (`W`);
`Timestamp` and block heights are `Nat`.  `HashSet<PublicKey>` is `Finset PK`. -/
structure Era (γ CB PK W : Type) where
  consensus : γ
  start_time : Nat
  start_height : Nat
  candidates : List (PendingCandidate CB PK)
  newly_slashed : List PK
  slashed : Finset PK
  accusations : Finset PK
  validators : W

/-- Rust `Era::new`: stores the given fields, with `candidates` and `accusations`
starting empty. -/
def Era.new (consensus : γ) (start_time : Nat) (start_height : Nat)
    (newly_slashed : List PK) (slashed : Finset PK) (validators : W) :
    Era γ CB PK W :=
  { consensus, start_time, start_height, candidates := [],
    newly_slashed, slashed, accusations := ∅, validators }

/-- Rust `Era::add_candidate`: pushes a new `PendingCandidate`. -/
def Era.add_candidate (e : Era γ CB PK W) (candidate : CB)
    (missing_evidence : List PK) : Era γ CB PK W :=
  { e with candidates := e.candidates ++ [PendingCandidate.new candidate missing_evidence] }

/-- Rust `Era::remove_complete_candidates`: partitions the candidate list by
`PendingCandidate::is_complete`, keeps the incomplete ones, and returns the
candidate blocks of the complete ones.  The pair is (returned blocks, new era). -/
def Era.remove_complete_candidates (e : Era γ CB PK W) :
    List CB × Era γ CB PK W :=
  let p := e.candidates.partition PendingCandidate.is_complete
  (p.1.map PendingCandidate.candidate, { e with candidates := p.2 })

/-- Rust `Era::resolve_evidence`: drops `pub_key` from the
`missing_evidence` list of every candidate (Rust `retain(|pk| pk != pub_key)`), marks the consensus
instance faulty (abstract `mark_faulty`), and removes/returns the now-complete
candidates. -/
def Era.resolve_evidence [DecidableEq PK] (e : Era γ CB PK W)
    (mark_faulty : PK → γ → γ) (pub_key : PK) : List CB × Era γ CB PK W :=
  let candidates := e.candidates.map fun pc =>
    { pc with missing_evidence := pc.missing_evidence.filter fun pk => !decide (pk = pub_key) }
  Era.remove_complete_candidates
    { e with candidates, consensus := mark_faulty pub_key e.consensus }

/-- Rust `Era::accept_proto_block`: sets `validated` on every candidate whose proto
block (extracted by the abstract accessor `proto_block_of`) equals `proto_block`,
then removes/returns the complete candidates. -/
def Era.accept_proto_block [DecidableEq PB] (e : Era γ CB PK W)
    (proto_block_of : CB → PB) (proto_block : PB) : List CB × Era γ CB PK W :=
  let candidates := e.candidates.map fun pc =>
    if proto_block_of pc.candidate = proto_block then { pc with validated := true } else pc
  Era.remove_complete_candidates { e with candidates }

/-- Rust `Era::reject_proto_block`: partitions candidates by whether their proto
block equals `proto_block`; removes and returns the matching ones, keeps the rest. -/
def Era.reject_proto_block [DecidableEq PB] (e : Era γ CB PK W)
    (proto_block_of : CB → PB) (proto_block : PB) : List CB × Era γ CB PK W :=
  let p := e.candidates.partition fun pc => decide (proto_block_of pc.candidate = proto_block)
  (p.1.map PendingCandidate.candidate, { e with candidates := p.2 })

/-- Rust `Era::resolve_validity`: dispatches to `accept_proto_block` or
`reject_proto_block` depending on `valid`. -/
def Era.resolve_validity [DecidableEq PB] (e : Era γ CB PK W)
    (proto_block_of : CB → PB) (proto_block : PB) (valid : Bool) :
    List CB × Era γ CB PK W :=
  if valid then e.accept_proto_block proto_block_of proto_block
  else e.reject_proto_block proto_block_of proto_block

/-- Rust `Era::add_accusations`: for each given key, inserts it into `accusations`
unless it is already in `slashed`. -/
def Era.add_accusations [DecidableEq PK] (e : Era γ CB PK W)
    (accusations : List PK) : Era γ CB PK W :=
  accusations.foldl
    (fun e pub_key =>
      if pub_key ∈ e.slashed then e
      else { e with accusations := insert pub_key e.accusations })
    e

/-- Mutating `Era` operations, for stating invariants over arbitrary call
sequences (`era.rs` exposes exactly these state-changing entry points besides
`Era::new`). -/
inductive EraOp (CB PB PK : Type) where
  | add_candidate (candidate : CB) (missing_evidence : List PK)
  | resolve_evidence (pub_key : PK)
  | resolve_validity (proto_block : PB) (valid : Bool)
  | add_accusations (accusations : List PK)

/-- Applies one `EraOp`, discarding the returned candidate-block list. -/
def Era.apply_op [DecidableEq PK] [DecidableEq PB] (mark_faulty : PK → γ → γ)
    (proto_block_of : CB → PB) (e : Era γ CB PK W) : EraOp CB PB PK → Era γ CB PK W
  | .add_candidate c me => e.add_candidate c me
  | .resolve_evidence pk => (e.resolve_evidence mark_faulty pk).2
  | .resolve_validity pb valid => (e.resolve_validity proto_block_of pb valid).2
  | .add_accusations accs => e.add_accusations accs

/-- Applies a sequence of `EraOp`s in order. -/
def Era.apply_ops [DecidableEq PK] [DecidableEq PB] (mark_faulty : PK → γ → γ)
    (proto_block_of : CB → PB) (ops : List (EraOp CB PB PK)) (e : Era γ CB PK W) :
    Era γ CB PK W :=
  ops.foldl (Era.apply_op mark_faulty proto_block_of) e

/-- Modelled from the spec: `EraSupervisor::handle_create_new_era`s caller-side
construction of the cumulative slashed set lives in `era_supervisor.rs`, which
is not under `src/`.  Per the spec, `slashed` is the cumulative slashed set
carried over the bonded-eras window and it includes the `newly_slashed` of this era;
we model the supervisor as inserting every newly slashed validator into the
carried-over set before calling `Era::new`. -/
def supervisor_new_era [DecidableEq PK] (consensus : γ) (start_time : Nat)
    (start_height : Nat) (newly_slashed : List PK) (carried_slashed : Finset PK)
    (validators : W) : Era γ CB PK W :=
  Era.new consensus start_time start_height newly_slashed
    (newly_slashed.foldl (fun s pk => insert pk s) carried_slashed) validators

/-- Outcome of the `Event::CreateNewEra` arm of `EraSupervisor::handle_event`
in `consensus.rs`: either a process-level abort (`panic!`, modelled as `fatal`
with the panic message) or era construction proceeding with the resolved data. -/
inductive CreateNewEraOutcome (A : Type) where
  | fatal (msg : String)
  | proceed (a : A)

/-- Tests for the `fatal` outcome. -/
def CreateNewEraOutcome.isFatal : CreateNewEraOutcome A → Bool
  | .fatal _ => true
  | .proceed _ => false

/-- The `Event::CreateNewEra` arm of `EraSupervisor::handle_event`
(`consensus.rs`): `booking_block_hash : Result<BlockHash, u64>` and
`key_block_seed : Result<Digest, u64>` are unwrapped with `panic!` on `Err`;
`get_validators_result : Result<Option<ValidatorWeights>, _>` must be
`Ok(Some(_))`, with the weights keys converted by a fallible conversion
(`key.try_into()`, abstracted as `convert`) that drops unconvertible keys;
any other shape panics.  Only when all three resolve does the handler call
`handle_create_new_era` with the resolved data. -/
def handle_create_new_era_event (booking_block_hash : Except Nat BH)
    (key_block_seed : Except Nat D) (get_validators_result : Except E (Option (List (RK × Nat))))
    (convert : RK → Option PK) : CreateNewEraOutcome (BH × D × List (PK × Nat)) :=
  match booking_block_hash with
  | .error _ => .fatal "couldnt get the booking block hash"
  | .ok booking_block_hash =>
    match key_block_seed with
    | .error _ => .fatal "couldnt get the seed from the key block"
    | .ok key_block_seed =>
      match get_validators_result with
      | .ok (some validator_weights) =>
        .proceed (booking_block_hash, key_block_seed,
          validator_weights.filterMap fun kw => (convert kw.1).map fun key => (key, kw.2))
      | _ => .fatal "couldnt get validators"

/-! Round success meter (`round_success_meter.rs`).  Timestamps are `Nat`
milliseconds; the `u8` round exponents are `Nat` (all arithmetic on them is
guarded by the min/max bounds, so u8 overflow cannot occur). -/

/-- Constant `NUM_ROUNDS_TO_CONSIDER`: the number of most recent rounds tracked. -/
def NUM_ROUNDS_TO_CONSIDER : Nat := 40

/-- Constant `MAX_FAILED_ROUNDS`: the failure threshold above which we slow down. -/
def MAX_FAILED_ROUNDS : Nat := 10

/-- Constant `ACCELERATION_PARAMETER`: we try to accelerate every this many rounds. -/
def ACCELERATION_PARAMETER : Nat := 40

/-- Constant `MAX_FAILURES_FOR_ACCELERATION`: the maximum number of failures with which
we will attempt to accelerate. -/
def MAX_FAILURES_FOR_ACCELERATION : Nat := 3

/-- Modelled from the spec: `round_id` lives in `highway_core`, which is not
under `src/`.  The spec defines a round as a fixed window of length
`2 ^ exponent` time units, so the round id of a timestamp is the timestamp
truncated down to a multiple of the round length — consistent with
`calculate_new_exponent`, which reconstructs the id of the round containing
`now` as `(now.millis() >> exp) << exp`. -/
def round_id (timestamp : Nat) (exp : Nat) : Nat :=
  (timestamp >>> exp) <<< exp

/-- Rust `RoundSuccessMeter<C>`: the round-success history (head of the list is the
most recently handled round), the current round id, the proposal hashes
accumulated in the current round (abstract hash type `H`), and the exponent
bounds. -/
structure RoundSuccessMeter (H : Type) where
  rounds : List Bool
  current_round_id : Nat
  proposals : List H
  min_round_exp : Nat
  max_round_exp : Nat
  current_round_exp : Nat

/-- Rust `RoundSuccessMeter::new`. -/
def RoundSuccessMeter.new (round_exp min_round_exp max_round_exp timestamp : Nat) :
    RoundSuccessMeter H :=
  { rounds := [], current_round_id := round_id timestamp round_exp,
    proposals := [], min_round_exp, max_round_exp, current_round_exp := round_exp }

/-- Rust `RoundSuccessMeter::change_exponent`: clears the history and proposals,
sets the new exponent and recomputes the current round id for it. -/
def RoundSuccessMeter.change_exponent (m : RoundSuccessMeter H)
    (new_exp timestamp : Nat) : RoundSuccessMeter H :=
  { m with
    rounds := [], current_round_exp := new_exp,
    current_round_id := round_id timestamp new_exp, proposals := [] }

/-- Rust `RoundSuccessMeter::count_failures`: the number of `false` entries in the
history window. -/
def RoundSuccessMeter.count_failures (m : RoundSuccessMeter H) : Nat :=
  (m.rounds.filter fun success => !success).length

/-- Rust `RoundSuccessMeter::clean_old_rounds`: pops from the back until at most
`NUM_ROUNDS_TO_CONSIDER` entries remain, i.e. keeps the first 40. -/
def RoundSuccessMeter.clean_old_rounds (m : RoundSuccessMeter H) :
    RoundSuccessMeter H :=
  { m with rounds := m.rounds.take NUM_ROUNDS_TO_CONSIDER }

/-- Rust `RoundSuccessMeter::new_exponent`: slow down by 1 when there are more than
`MAX_FAILED_ROUNDS` failures and the exponent is below the maximum; otherwise
speed up by 1 when the round index is a multiple of `ACCELERATION_PARAMETER`,
the exponent is above the minimum, the window is full, and there are fewer than
`MAX_FAILURES_FOR_ACCELERATION` failures; otherwise keep the exponent. -/
def RoundSuccessMeter.new_exponent (m : RoundSuccessMeter H) : Nat :=
  let current_round_index := m.current_round_id >>> m.current_round_exp
  let num_failures := m.count_failures
  if num_failures > MAX_FAILED_ROUNDS ∧ m.current_round_exp < m.max_round_exp then
    m.current_round_exp + 1
  else if current_round_index % ACCELERATION_PARAMETER = 0
      ∧ m.current_round_exp > m.min_round_exp
      ∧ m.rounds.length = NUM_ROUNDS_TO_CONSIDER
      ∧ num_failures < MAX_FAILURES_FOR_ACCELERATION then
    m.current_round_exp - 1
  else
    m.current_round_exp

/-- Rust `RoundSuccessMeter::calculate_new_exponent`.  `Timestamp::now()` is the
explicit parameter `now`; `check_proposals_success` (which queries the highway
state for a level-1 summit, code not under `src/`) is the abstract predicate
`success`.  If the current round has not ended, this is a read returning
`new_exponent()`; otherwise it records the ended round as successful iff any
accumulated proposal succeeded, records every skipped round as failed, advances
the round id, trims the history, and — when the newly computed exponent differs
from the current one — calls `change_exponent`. -/
def RoundSuccessMeter.calculate_new_exponent (m : RoundSuccessMeter H)
    (success : H → Bool) (now : Nat) : Nat × RoundSuccessMeter H :=
  if round_id now m.current_round_exp ≤ m.current_round_id then
    (m.new_exponent, m)
  else
    let current_round_index := m.current_round_id >>> m.current_round_exp
    let new_round_index := now >>> m.current_round_exp
    let flag := m.proposals.any success
    let m := { m with
      proposals := [],
      rounds := List.replicate (new_round_index - current_round_index - 1) false
        ++ flag :: m.rounds }
    let m := { m with current_round_id := new_round_index <<< m.current_round_exp }
    let m := m.clean_old_rounds
    let new_exp := m.new_exponent
    if new_exp ≠ m.current_round_exp then (new_exp, m.change_exponent new_exp now)
    else (new_exp, m)

/-! Theorems. -/

/-- Claim C1: a `PendingCandidate` is complete iff its `validated` flag is true
and its `missing_evidence` list is empty; for every candidate list,
`remove_complete_candidates` returns exactly the candidates satisfying this
predicate and leaves every other candidate in the list, untouched and in their
original relative order. -/
theorem remove_complete_candidates_spec {γ CB PK W : Type} :
    (∀ pc : PendingCandidate CB PK,
      pc.is_complete = true ↔ (pc.validated = true ∧ pc.missing_evidence = [])) ∧
    (∀ e : Era γ CB PK W,
      e.remove_complete_candidates.1
        = (e.candidates.filter PendingCandidate.is_complete).map PendingCandidate.candidate ∧
      e.remove_complete_candidates.2
        = { e with candidates := e.candidates.filter fun pc => !pc.is_complete }) := by
  constructor
  · intro pc
    simp [PendingCandidate.is_complete, List.isEmpty_iff]
  · intro e
    constructor <;>
    · simp only [Era.remove_complete_candidates, List.partition_eq_filter_filter]
      try rfl

/-- Claim C3: `reject_proto_block(b)` removes from the pending list and returns
all and only the candidates whose underlying proto block equals `b`; the
remaining candidates are unaffected and keep their original relative order. -/
theorem reject_proto_block_spec {γ CB PB PK W : Type} [DecidableEq PB]
    (proto_block_of : CB → PB) :
    ∀ (e : Era γ CB PK W) (b : PB),
      (e.reject_proto_block proto_block_of b).1
        = (e.candidates.filter fun pc => decide (proto_block_of pc.candidate = b)).map
            PendingCandidate.candidate ∧
      (e.reject_proto_block proto_block_of b).2
        = { e with
            candidates :=
              e.candidates.filter fun pc => !decide (proto_block_of pc.candidate = b) } := by
  intro e b
  constructor <;>
  · simp only [Era.reject_proto_block, List.partition_eq_filter_filter]
    try rfl

/-- Claim C2: `resolve_evidence(v)` removes `v` from the `missing_evidence`
list of every pending candidate, and returns exactly those candidates that are
thereby complete (validated and with no remaining missing evidence), each
returned exactly once and removed from the pending list. -/
theorem resolve_evidence_spec {γ CB PK W : Type} [DecidableEq PK]
    (mark_faulty : PK → γ → γ) (v : PK) (e : Era γ CB PK W) :
    (∀ pc ∈ (e.candidates.map fun pc =>
        { pc with missing_evidence := pc.missing_evidence.filter fun pk => !decide (pk = v) }),
      v ∉ pc.missing_evidence) ∧
    (e.resolve_evidence mark_faulty v).1
      = ((e.candidates.map fun pc =>
            { pc with
              missing_evidence :=
                pc.missing_evidence.filter fun pk => !decide (pk = v) }).filter
          PendingCandidate.is_complete).map PendingCandidate.candidate ∧
    (e.resolve_evidence mark_faulty v).2.candidates
      = (e.candidates.map fun pc =>
          { pc with
            missing_evidence :=
              pc.missing_evidence.filter fun pk => !decide (pk = v) }).filter
          fun pc => !pc.is_complete := by
  refine ⟨?_, ?_, ?_⟩
  · intro pc hpc
    simp only [List.mem_map] at hpc
    obtain ⟨pc0, _, rfl⟩ := hpc
    simp [List.mem_filter]
  · simp only [Era.resolve_evidence, Era.remove_complete_candidates,
      List.partition_eq_filter_filter]
  · simp only [Era.resolve_evidence, Era.remove_complete_candidates,
      List.partition_eq_filter_filter]
    try rfl

/-- Claim C4: handling a `CreateNewEra` event aborts fatally (`panic!`, not a
recoverable error result) whenever the booking block hash is an `Err`, the
key-block seed is an `Err`, or the validator-weights result is an error or
`None`; era construction proceeds exactly when all three resolved successfully. -/
theorem handle_create_new_era_event_spec {BH D E RK PK : Type}
    (b : Except Nat BH) (s : Except Nat D)
    (v : Except E (Option (List (RK × Nat)))) (convert : RK → Option PK) :
    ((handle_create_new_era_event b s v convert).isFatal = true ↔
      (∃ h, b = .error h) ∨ (∃ h, s = .error h) ∨ ∀ ws, v ≠ .ok (some ws)) ∧
    (∀ (bh : BH) (d : D) (ws : List (RK × Nat)),
      handle_create_new_era_event (E := E) (.ok bh) (.ok d) (.ok (some ws)) convert
        = .proceed (bh, d, ws.filterMap fun kw => (convert kw.1).map fun key => (key, kw.2))) := by
  constructor
  · rcases b with hb | bh <;> rcases s with hs | d <;>
      rcases v with hv | (_ | ws) <;>
      simp [handle_create_new_era_event, CreateNewEraOutcome.isFatal]
  · intro bh d ws
    rfl

/-- Claim C8, counterexample: at `e = u64::MAX`, `successor` wraps to era 0
(release builds; debug builds panic on the overflowing `self.0 + 1`), and
`checked_sub 1` on era 0 is `None`, not `Some e`. -/
theorem successor_checked_sub_fails_at_u64_max :
    ¬ ((EraId.mk (2 ^ 64 - 1)).successor.checked_sub 1 = some (EraId.mk (2 ^ 64 - 1))) := by
  simp [EraId.successor, EraId.checked_sub, U64_MOD]

/-- Claim C8, amended: for every `EraId` value `e` strictly below `u64::MAX`
(so that `successor` does not overflow), `e.successor().checked_sub(1) == Some(e)`. -/
theorem successor_checked_sub (e : EraId) (h : e.val < 2 ^ 64 - 1) :
    e.successor.checked_sub 1 = some e := by
  unfold EraId.successor EraId.checked_sub U64_MOD
  have h1 : e.val + 1 < 2 ^ 64 := by omega
  rw [Nat.mod_eq_of_lt h1]
  simp

/-- Witness for claim C8 at the concrete era 5. -/
theorem successor_checked_sub_witness :
    (EraId.mk 5).val < 2 ^ 64 - 1 ∧ (EraId.mk 5).successor.checked_sub 1 = some (EraId.mk 5) :=
  ⟨by norm_num, successor_checked_sub ⟨5⟩ (by norm_num)⟩

end Casper

namespace Casper

/-- Claim C5: with more than `MAX_FAILED_ROUNDS` (10) failures in the window,
`new_exponent` returns the current exponent plus 1 when it is strictly below
`max_round_exp`, and returns `max_round_exp` unchanged (clamped) when the
current exponent already equals `max_round_exp`. -/
theorem new_exponent_slowdown {H : Type} (m : RoundSuccessMeter H)
    (hf : MAX_FAILED_ROUNDS < m.count_failures) :
    (m.current_round_exp < m.max_round_exp →
      m.new_exponent = m.current_round_exp + 1) ∧
    (m.current_round_exp = m.max_round_exp →
      m.new_exponent = m.max_round_exp) := by
  constructor
  · intro hlt
    simp only [RoundSuccessMeter.new_exponent]
    rw [if_pos ⟨hf, hlt⟩]
  · intro heq
    have hnlt : ¬ m.current_round_exp < m.max_round_exp := by omega
    have hnf3 : ¬ m.count_failures < MAX_FAILURES_FOR_ACCELERATION := by
      unfold MAX_FAILED_ROUNDS at hf
      unfold MAX_FAILURES_FOR_ACCELERATION
      omega
    simp only [RoundSuccessMeter.new_exponent]
    rw [if_neg fun h => hnlt h.2, if_neg fun h => hnf3 h.2.2.2]
    exact heq

/-- Concrete meter with a window of 11 failed rounds (exponent 13, bounds 8/19). -/
def meter_eleven_failures : RoundSuccessMeter Nat :=
  { rounds := List.replicate 11 false, current_round_id := 0, proposals := [],
    min_round_exp := 8, max_round_exp := 19, current_round_exp := 13 }

/-- Witness for claim C5 at a concrete meter with 11 failures, below the
maximum exponent. -/
theorem new_exponent_slowdown_witness :
    MAX_FAILED_ROUNDS < meter_eleven_failures.count_failures ∧
    meter_eleven_failures.new_exponent = meter_eleven_failures.current_round_exp + 1 :=
  ⟨by decide, (new_exponent_slowdown meter_eleven_failures (by decide)).1 (by decide)⟩

/-- Concrete meter whose 40-round window holds exactly 3 failures, at round
index 0 (a multiple of 40), with exponent 13 strictly between the bounds 8 and 19. -/
def meter_three_failures : RoundSuccessMeter Nat :=
  { rounds := List.replicate 3 false ++ List.replicate 37 true,
    current_round_id := 0, proposals := [],
    min_round_exp := 8, max_round_exp := 19, current_round_exp := 13 }

/-- Claim C6, counterexample: a meter satisfying every premise of the claim
with exactly 3 failures in its full 40-round window (at most 10 failures,
round index a multiple of 40, exponent strictly above the minimum) does not
speed up: `new_exponent` keeps the exponent 13 instead of returning 12,
because the code requires strictly fewer than `MAX_FAILURES_FOR_ACCELERATION`
(3) failures. -/
theorem new_exponent_speedup_fails_at_three_failures :
    meter_three_failures.count_failures ≤ MAX_FAILED_ROUNDS ∧
    (meter_three_failures.current_round_id >>> meter_three_failures.current_round_exp)
      % ACCELERATION_PARAMETER = 0 ∧
    meter_three_failures.rounds.length = NUM_ROUNDS_TO_CONSIDER ∧
    meter_three_failures.min_round_exp < meter_three_failures.current_round_exp ∧
    meter_three_failures.count_failures ≤ 3 ∧
    meter_three_failures.new_exponent ≠ meter_three_failures.current_round_exp - 1 := by
  decide

/-- Claim C6, amended: with at most 10 failures in the window, a round index
that is a multiple of 40, a full 40-round history, the exponent strictly above
`min_round_exp`, and strictly fewer than 3 (i.e. at most 2) failures in the
window, `new_exponent` returns the current exponent minus 1. -/
theorem new_exponent_speedup {H : Type} (m : RoundSuccessMeter H)
    (hf10 : m.count_failures ≤ MAX_FAILED_ROUNDS)
    (hidx : (m.current_round_id >>> m.current_round_exp) % ACCELERATION_PARAMETER = 0)
    (hlen : m.rounds.length = NUM_ROUNDS_TO_CONSIDER)
    (hmin : m.min_round_exp < m.current_round_exp)
    (hf3 : m.count_failures < MAX_FAILURES_FOR_ACCELERATION) :
    m.new_exponent = m.current_round_exp - 1 := by
  have hn10 : ¬ MAX_FAILED_ROUNDS < m.count_failures := by omega
  simp only [RoundSuccessMeter.new_exponent]
  rw [if_neg fun h => hn10 h.1, if_pos ⟨hidx, hmin, hlen, hf3⟩]

/-- Concrete meter whose 40-round window holds exactly 2 failures, at round
index 0, with exponent 13 strictly between the bounds 8 and 19. -/
def meter_two_failures : RoundSuccessMeter Nat :=
  { rounds := List.replicate 2 false ++ List.replicate 38 true,
    current_round_id := 0, proposals := [],
    min_round_exp := 8, max_round_exp := 19, current_round_exp := 13 }

/-- Witness for the amended claim C6 at a concrete meter with 2 failures. -/
theorem new_exponent_speedup_witness :
    meter_two_failures.count_failures ≤ MAX_FAILED_ROUNDS ∧
    (meter_two_failures.current_round_id >>> meter_two_failures.current_round_exp)
      % ACCELERATION_PARAMETER = 0 ∧
    meter_two_failures.rounds.length = NUM_ROUNDS_TO_CONSIDER ∧
    meter_two_failures.min_round_exp < meter_two_failures.current_round_exp ∧
    meter_two_failures.count_failures < MAX_FAILURES_FOR_ACCELERATION ∧
    meter_two_failures.new_exponent = meter_two_failures.current_round_exp - 1 :=
  ⟨by decide, by decide, by decide, by decide, by decide,
    new_exponent_speedup meter_two_failures (by decide) (by decide) (by decide)
      (by decide) (by decide)⟩

end Casper

namespace Casper

/-- On a meter whose history was just cleared by `change_exponent`, the next
`new_exponent` query returns the freshly set exponent unchanged. -/
lemma change_exponent_new_exponent {H : Type} (m : RoundSuccessMeter H) (e t : Nat) :
    (m.change_exponent e t).new_exponent = e := by
  simp [RoundSuccessMeter.change_exponent, RoundSuccessMeter.new_exponent,
    RoundSuccessMeter.count_failures, NUM_ROUNDS_TO_CONSIDER, MAX_FAILED_ROUNDS,
    MAX_FAILURES_FOR_ACCELERATION]

/-- When the current round has ended, `calculate_new_exponent` reaches an
intermediate meter (history pushed, round id advanced, history trimmed) with
the exponent still unchanged, and then changes the exponent iff the newly
computed one differs. -/
lemma calculate_new_exponent_of_round_ended {H : Type} (m : RoundSuccessMeter H)
    (success : H → Bool) (now : Nat)
    (hend : ¬ round_id now m.current_round_exp ≤ m.current_round_id) :
    ∃ m2 : RoundSuccessMeter H, m2.current_round_exp = m.current_round_exp ∧
      m.calculate_new_exponent success now =
        (if m2.new_exponent ≠ m2.current_round_exp
         then (m2.new_exponent, m2.change_exponent m2.new_exponent now)
         else (m2.new_exponent, m2)) := by
  refine ⟨RoundSuccessMeter.clean_old_rounds
    { m with
      proposals := [],
      rounds := List.replicate
          ((now >>> m.current_round_exp) - (m.current_round_id >>> m.current_round_exp) - 1)
          false ++ (m.proposals.any success) :: m.rounds,
      current_round_id := (now >>> m.current_round_exp) <<< m.current_round_exp },
    rfl, ?_⟩
  simp only [RoundSuccessMeter.calculate_new_exponent, if_neg hend]

/-- Claim C7: whenever `calculate_new_exponent` changes the exponent of the meter,
the round-success history and the accumulated proposal list of the resulting
meter are empty, its current round id is recomputed (via `round_id`) for the
new exponent at the current time, the returned exponent is the new exponent
of the meter, and a subsequent `new_exponent` query on the resulting empty-history
meter returns the new exponent unchanged. -/
theorem calculate_new_exponent_change_resets {H : Type} (m : RoundSuccessMeter H)
    (success : H → Bool) (now : Nat)
    (hch : (m.calculate_new_exponent success now).2.current_round_exp ≠ m.current_round_exp) :
    (m.calculate_new_exponent success now).2.rounds = [] ∧
    (m.calculate_new_exponent success now).2.proposals = [] ∧
    (m.calculate_new_exponent success now).2.current_round_exp
      = (m.calculate_new_exponent success now).1 ∧
    (m.calculate_new_exponent success now).2.current_round_id
      = round_id now (m.calculate_new_exponent success now).1 ∧
    (m.calculate_new_exponent success now).2.new_exponent
      = (m.calculate_new_exponent success now).1 := by
  by_cases hend : round_id now m.current_round_exp ≤ m.current_round_id
  · exfalso
    apply hch
    simp only [RoundSuccessMeter.calculate_new_exponent, if_pos hend]
  · obtain ⟨m2, hexp, heq⟩ :=
      calculate_new_exponent_of_round_ended m success now hend
    rw [heq] at hch ⊢
    by_cases hne : m2.new_exponent ≠ m2.current_round_exp
    · rw [if_pos hne] at hch ⊢
      exact ⟨rfl, rfl, rfl, rfl, change_exponent_new_exponent m2 m2.new_exponent now⟩
    · rw [if_neg hne] at hch
      exact absurd hexp hch

/-- Concrete meter mid-history with 11 failed rounds recorded, used to trigger
an exponent change at the next round boundary. -/
def meter_failing_regime : RoundSuccessMeter Nat :=
  { rounds := List.replicate 11 false, current_round_id := 0, proposals := [],
    min_round_exp := 8, max_round_exp := 19, current_round_exp := 13 }

/-- Witness for claim C7: at time 8192 (one full 2^13-millisecond round past
round id 0) the failing meter slows down from exponent 13 to 14 and is reset. -/
theorem calculate_new_exponent_change_resets_witness :
    (meter_failing_regime.calculate_new_exponent (fun _ => false) 8192).2.current_round_exp
      ≠ meter_failing_regime.current_round_exp ∧
    ((meter_failing_regime.calculate_new_exponent (fun _ => false) 8192).2.rounds = [] ∧
     (meter_failing_regime.calculate_new_exponent (fun _ => false) 8192).2.proposals = [] ∧
     (meter_failing_regime.calculate_new_exponent (fun _ => false) 8192).2.current_round_exp
       = (meter_failing_regime.calculate_new_exponent (fun _ => false) 8192).1 ∧
     (meter_failing_regime.calculate_new_exponent (fun _ => false) 8192).2.current_round_id
       = round_id 8192 (meter_failing_regime.calculate_new_exponent (fun _ => false) 8192).1 ∧
     (meter_failing_regime.calculate_new_exponent (fun _ => false) 8192).2.new_exponent
       = (meter_failing_regime.calculate_new_exponent (fun _ => false) 8192).1) :=
  ⟨by decide, calculate_new_exponent_change_resets meter_failing_regime
    (fun _ => false) 8192 (by decide)⟩

end Casper

namespace Casper

/-- Folding `insert` over a list preserves membership of the initial set. -/
lemma mem_foldl_insert_of_mem_init {PK : Type} [DecidableEq PK] (l : List PK)
    (s : Finset PK) (pk : PK) (h : pk ∈ s) :
    pk ∈ l.foldl (fun s pk => insert pk s) s := by
  induction l generalizing s with
  | nil => exact h
  | cons a t ih => exact ih _ (Finset.mem_insert_of_mem h)

/-- Every list element ends up in the set after folding `insert` over the list. -/
lemma mem_foldl_insert {PK : Type} [DecidableEq PK] (l : List PK)
    (s : Finset PK) (pk : PK) (h : pk ∈ l) :
    pk ∈ l.foldl (fun s pk => insert pk s) s := by
  induction l generalizing s with
  | nil => cases h
  | cons a t ih =>
    rcases List.mem_cons.1 h with rfl | ht
    · exact mem_foldl_insert_of_mem_init t _ pk (Finset.mem_insert_self _ _)
    · exact ih _ ht

/-- The operation `add_accusations` never changes `slashed` or `newly_slashed`. -/
lemma add_accusations_slashed {γ CB PK W : Type} [DecidableEq PK] (l : List PK) :
    ∀ e : Era γ CB PK W,
      (e.add_accusations l).slashed = e.slashed ∧
      (e.add_accusations l).newly_slashed = e.newly_slashed := by
  induction l with
  | nil => exact fun e => ⟨rfl, rfl⟩
  | cons a t ih =>
    intro e
    simp only [Era.add_accusations, List.foldl_cons]
    by_cases ha : a ∈ e.slashed
    · rw [if_pos ha]
      exact ih e
    · rw [if_neg ha]
      exact ih { e with accusations := insert a e.accusations }

/-- A key accused by `add_accusations` was either already accused or is not slashed. -/
lemma add_accusations_mem {γ CB PK W : Type} [DecidableEq PK] (l : List PK) :
    ∀ (e : Era γ CB PK W) (pk : PK), pk ∈ (e.add_accusations l).accusations →
      pk ∈ e.accusations ∨ pk ∉ e.slashed := by
  induction l with
  | nil => exact fun e pk h => .inl h
  | cons a t ih =>
    intro e pk h
    simp only [Era.add_accusations, List.foldl_cons] at h
    by_cases ha : a ∈ e.slashed
    · rw [if_pos ha] at h
      exact ih e pk h
    · rw [if_neg ha] at h
      rcases ih _ pk h with hmem | hnot
      · rcases Finset.mem_insert.1 hmem with rfl | h2
        · exact .inr ha
        · exact .inl h2
      · exact .inr hnot

/-- No `Era` operation changes `slashed` or `newly_slashed`. -/
lemma apply_op_slashed {γ CB PB PK W : Type} [DecidableEq PK] [DecidableEq PB]
    (mark_faulty : PK → γ → γ) (proto_block_of : CB → PB)
    (e : Era γ CB PK W) (op : EraOp CB PB PK) :
    (Era.apply_op mark_faulty proto_block_of e op).slashed = e.slashed ∧
    (Era.apply_op mark_faulty proto_block_of e op).newly_slashed = e.newly_slashed := by
  cases op with
  | add_candidate c me => exact ⟨rfl, rfl⟩
  | resolve_evidence pk => exact ⟨rfl, rfl⟩
  | resolve_validity pb valid => cases valid <;> exact ⟨rfl, rfl⟩
  | add_accusations accs => exact add_accusations_slashed accs e

/-- After any single `Era` operation, an accused key was either already
accused or is not in the (unchanged) slashed set. -/
lemma apply_op_accusations {γ CB PB PK W : Type} [DecidableEq PK] [DecidableEq PB]
    (mark_faulty : PK → γ → γ) (proto_block_of : CB → PB)
    (e : Era γ CB PK W) (op : EraOp CB PB PK) (pk : PK) :
    pk ∈ (Era.apply_op mark_faulty proto_block_of e op).accusations →
      pk ∈ e.accusations ∨ pk ∉ e.slashed := by
  cases op with
  | add_candidate c me => exact fun h => .inl h
  | resolve_evidence v => exact fun h => .inl h
  | resolve_validity pb valid => cases valid <;> exact fun h => .inl h
  | add_accusations accs => exact add_accusations_mem accs e pk

/-- No sequence of `Era` operations changes `slashed` or `newly_slashed`. -/
lemma apply_ops_slashed {γ CB PB PK W : Type} [DecidableEq PK] [DecidableEq PB]
    (mark_faulty : PK → γ → γ) (proto_block_of : CB → PB)
    (ops : List (EraOp CB PB PK)) :
    ∀ e : Era γ CB PK W,
      (Era.apply_ops mark_faulty proto_block_of ops e).slashed = e.slashed ∧
      (Era.apply_ops mark_faulty proto_block_of ops e).newly_slashed = e.newly_slashed := by
  induction ops with
  | nil => exact fun e => ⟨rfl, rfl⟩
  | cons op t ih =>
    intro e
    have h1 := apply_op_slashed mark_faulty proto_block_of e op
    have h2 := ih (Era.apply_op mark_faulty proto_block_of e op)
    exact ⟨h2.1.trans h1.1, h2.2.trans h1.2⟩

/-- Disjointness of `accusations` and `slashed` is preserved by every
sequence of `Era` operations. -/
lemma apply_ops_disjoint {γ CB PB PK W : Type} [DecidableEq PK] [DecidableEq PB]
    (mark_faulty : PK → γ → γ) (proto_block_of : CB → PB)
    (ops : List (EraOp CB PB PK)) :
    ∀ e : Era γ CB PK W, (∀ pk ∈ e.accusations, pk ∉ e.slashed) →
      ∀ pk ∈ (Era.apply_ops mark_faulty proto_block_of ops e).accusations,
        pk ∉ (Era.apply_ops mark_faulty proto_block_of ops e).slashed := by
  induction ops with
  | nil => exact fun e h => h
  | cons op t ih =>
    intro e h
    apply ih (Era.apply_op mark_faulty proto_block_of e op)
    intro q hq
    rw [(apply_op_slashed mark_faulty proto_block_of e op).1]
    rcases apply_op_accusations mark_faulty proto_block_of e op q hq with hmem | hnot
    · exact h q hmem
    · exact hnot

/-- Claim C9: every era created through the supervisor (whose cumulative
slashed set includes the newly slashed validators, modelled from the spec)
satisfies `newly_slashed ⊆ slashed`, and the invariant is preserved by every
sequence of `Era` operations. -/
theorem newly_slashed_subset_slashed {γ CB PB PK W : Type} [DecidableEq PK] [DecidableEq PB]
    (mark_faulty : PK → γ → γ) (proto_block_of : CB → PB)
    (consensus : γ) (start_time start_height : Nat) (newly_slashed : List PK)
    (carried_slashed : Finset PK) (validators : W) (ops : List (EraOp CB PB PK)) :
    ∀ pk ∈ (Era.apply_ops mark_faulty proto_block_of ops
        (supervisor_new_era consensus start_time start_height newly_slashed
          carried_slashed validators : Era γ CB PK W)).newly_slashed,
      pk ∈ (Era.apply_ops mark_faulty proto_block_of ops
        (supervisor_new_era consensus start_time start_height newly_slashed
          carried_slashed validators : Era γ CB PK W)).slashed := by
  intro pk hpk
  have h := apply_ops_slashed mark_faulty proto_block_of ops
    (supervisor_new_era consensus start_time start_height newly_slashed
      carried_slashed validators : Era γ CB PK W)
  rw [h.2] at hpk
  rw [h.1]
  exact mem_foldl_insert newly_slashed carried_slashed pk hpk

/-- Claim C10: no `Era` operation ever adds to `slashed`, and starting from
`Era::new` (where `accusations` is empty, hence disjoint from `slashed`) every
sequence of `Era` operations preserves `accusations ∩ slashed = ∅`. -/
theorem accusations_disjoint_slashed {γ CB PB PK W : Type} [DecidableEq PK] [DecidableEq PB]
    (mark_faulty : PK → γ → γ) (proto_block_of : CB → PB)
    (consensus : γ) (start_time start_height : Nat) (newly_slashed : List PK)
    (slashed : Finset PK) (validators : W) (ops : List (EraOp CB PB PK)) :
    (∀ (e : Era γ CB PK W) (op : EraOp CB PB PK),
      (Era.apply_op mark_faulty proto_block_of e op).slashed = e.slashed) ∧
    ∀ pk ∈ (Era.apply_ops mark_faulty proto_block_of ops
        (Era.new consensus start_time start_height newly_slashed slashed validators
          : Era γ CB PK W)).accusations,
      pk ∉ (Era.apply_ops mark_faulty proto_block_of ops
        (Era.new consensus start_time start_height newly_slashed slashed validators
          : Era γ CB PK W)).slashed := by
  constructor
  · exact fun e op => (apply_op_slashed mark_faulty proto_block_of e op).1
  · apply apply_ops_disjoint
    intro pk hpk
    simp [Era.new] at hpk

end Casper

namespace Casper

/-- Witness for claim C9 at a concrete era: validator 7 is newly slashed and
ends up in the cumulative slashed set, with the empty operation sequence. -/
theorem newly_slashed_subset_slashed_witness :
    7 ∈ (Era.apply_ops (fun (_ : Nat) (c : Unit) => c) (fun (n : Nat) => n) []
        (supervisor_new_era () 0 0 [7] ∅ () : Era Unit Nat Nat Unit)).newly_slashed ∧
    7 ∈ (Era.apply_ops (fun (_ : Nat) (c : Unit) => c) (fun (n : Nat) => n) []
        (supervisor_new_era () 0 0 [7] ∅ () : Era Unit Nat Nat Unit)).slashed :=
  ⟨by decide,
    newly_slashed_subset_slashed (fun (_ : Nat) (c : Unit) => c) (fun (n : Nat) => n)
      () 0 0 [7] ∅ () [] 7 (by decide)⟩

end Casper
